import Mathlib

/-!
Verification of the bounded-concurrency batch-conversion core of
`video_to_audio.py` (repository thejoshwolfe/util).

The script is shallowly embedded: the `Job` class becomes the structure
`JobState` with pure transition functions, the effectful operations
(printing, spawning a process, deleting a file, `os.mkdir`, `os.wait`)
become an explicit `Event` trace, exceptions become an `Option RunError`
threaded through the run state, and the operating system (process exit
polling, `os.stat` file sizes, `os.path.isdir`) becomes an explicit
environment `Env`.  The `drain_some_jobs` inner loop of `main` is given
explicit fuel; running out of fuel models blocking forever in `os.wait`.
-/

namespace VideoToAudio

/-- Observable side effects of the script, in program order. -/
inductive Event where
  | print (s : String)
  | spawn (cmd : List String)
  | remove (path : String)
  | mkdir (path : String)
  | osWait
  deriving DecidableEq, Repr

/-- Exceptional terminations of the script.
`asdf` models the `raise ASDF` guard (a `NameError` in Python) hit when
`handle_maybe_done` is called on a job whose `done` flag is already set.
`outputTooSmall` models the `Exception("something looks wrong. file is too
small: " + self.output_path)` raised by the sanity check.
`pollOnNone` models the `AttributeError` of calling `.poll()` on
`self.process == None`.  `unrecognizedExit` models the `sys.exit` taken in
`main` when unrecognized files exist and are not ignored. -/
inductive RunError where
  | asdf
  | outputTooSmall (output_path : String)
  | pollOnNone
  | unrecognizedExit (paths : List String)
  deriving DecidableEq, Repr

/-- The `argparse` options consumed by `main` and `Job`.  `jobs` is a Python
`int`, hence `Int` here. -/
structure Options where
  verbose : Nat
  in_place : Bool
  just_print : Bool
  ignore_unrecognized : Bool
  skip_sanity_check : Bool
  output : Option String
  jobs : Int
  deriving DecidableEq, Repr

/-- The operating system as seen by the script: `poll t pid` tells whether the
process `pid` has exited by sweep time `t` (`self.process.poll() != None`),
`exitStatus pid` is its exit status (never inspected by the source),
`fileSize p` is `os.stat(p).st_size`, and `isdir` is `os.path.isdir`. -/
structure Env where
  poll : Nat → Nat → Bool
  exitStatus : Nat → Int
  fileSize : String → Nat
  isdir : String → Bool

/-- Python's `str.endswith`, on the character lists of the strings. -/
def str_endswith (s suffix : String) : Bool :=
  suffix.data.isSuffixOf s.data

/-- Python's `str.startswith`, on the character lists of the strings. -/
def str_startswith (s pre : String) : Bool :=
  pre.data.isPrefixOf s.data

/-- `os.path.split(p)[1]` for POSIX paths: the part of `p` after the last
`'/'` (all of `p` when there is no slash). -/
def basename (p : String) : String :=
  String.mk ((p.data.reverse.takeWhile (fun c => c != '/')).reverse)

/-- `os.path.join(a, b)` for POSIX paths (the two-argument case used by
`Job.__init__`). -/
def path_join (a b : String) : String :=
  if str_startswith b ("/") then b
  else if a = "" ∨ str_endswith a ("/") then a ++ b
  else a ++ "/" ++ b

/-- Python's `" ".join(cmd)`. -/
def joinSpace : List String → String
  | [] => ""
  | [s] => s
  | s :: rest => s ++ " " ++ joinSpace rest

/-- The output-path computation performed inline by `Job.__init__`:
`file_extension = ".mka"`; with an explicit `--output` that ends in the path
separator, single-file mode is turned off; in single-file mode the output is
the `--output` value itself; otherwise the basename of `input_path + ".mka"`
joined onto the `--output` directory; with no `--output`, the output sits
right next to the input. -/
def derive_output_path (input_path : String) (single_file_mode : Bool)
    (output : Option String) : String :=
  match output with
  | some out =>
      let sfm := if str_endswith out ("/") then false else single_file_mode
      if sfm then out
      else path_join out (basename (input_path ++ ".mka"))
  | none => input_path ++ ".mka"

/-- The mutable state of one `Job` object. -/
structure JobState where
  input_path : String
  output_path : String
  report_start : Bool
  verbose : Nat
  just_print : Bool
  in_place : Bool
  skip_sanity_check : Bool
  process : Option Nat
  done : Bool
  deriving DecidableEq, Repr

namespace Job

/-- `Job.__init__(input_path, single_file_mode, options, parallel_count)`. -/
def init (input_path : String) (single_file_mode : Bool) (options : Options)
    (parallel_count : Int) : JobState :=
  { input_path := input_path
    output_path := derive_output_path input_path single_file_mode options.output
    report_start := parallel_count == 1
    verbose := options.verbose
    just_print := options.just_print
    in_place := options.in_place
    skip_sanity_check := options.skip_sanity_check
    process := none
    done := false }

/-- The `ffmpeg` argv constructed by `Job.start`. -/
def build_cmd (j : JobState) : List String :=
  if j.verbose ≥ 2 then
    ["ffmpeg", "-i", j.input_path, "-vn", "-acodec", "copy", j.output_path]
  else
    ["ffmpeg", "-loglevel", "fatal", "-i", j.input_path, "-vn", "-acodec",
     "copy", j.output_path]

/-- The `"[{}/{}] converting: {}"` and `"[{}/{}] completed: {}"` lines. -/
def progressLine (verb : String) (numerator denominator : Nat)
    (path : String) : String :=
  "[" ++ toString numerator ++ "/" ++ toString denominator ++ "] " ++ verb
    ++ ": " ++ path

/-- `Job.start(numerator, denominator)`: prints the converting line in
start-report mode at verbosity ≥ 1, then either prints the joined command
(dry run) or spawns the process, which we identify by the fresh `pid`. -/
def start (j : JobState) (numerator denominator pid : Nat) :
    JobState × List Event :=
  let evs :=
    if j.report_start = true ∧ 1 ≤ j.verbose then
      [Event.print (progressLine ("converting") numerator denominator j.input_path)]
    else []
  if j.just_print then
    (j, evs ++ [Event.print (joinSpace (build_cmd j))])
  else
    ({ j with process := some pid }, evs ++ [Event.spawn (build_cmd j)])

/-- The first half of `Job.handle_maybe_done`: set `done` in dry-run mode;
otherwise poll the process and, once it exited, run the sanity check unless
disabled, raising when input size exceeds 1000000 and output size is below
100000. -/
def pollPhase (env : Env) (t : Nat) (j : JobState) :
    Option RunError × JobState :=
  if j.just_print then (none, { j with done := true })
  else
    match j.process with
    | none => (some RunError.pollOnNone, j)
    | some pid =>
        if env.poll t pid then
          if j.skip_sanity_check then (none, { j with done := true })
          else
            if 1000000 < env.fileSize j.input_path ∧
                env.fileSize j.output_path < 100000 then
              (some (RunError.outputTooSmall j.output_path), { j with done := true })
            else (none, { j with done := true })
        else (none, j)

/-- The events of the `if self.done:` epilogue of `handle_maybe_done`:
the deletion message and `os.remove` in in-place mode (no removal in dry
run), then the completed line in completion-report mode at verbosity ≥ 1. -/
def terminalEvents (j : JobState) (numerator denominator : Nat) : List Event :=
  (if j.in_place then
    (if 1 ≤ j.verbose then [Event.print ("deleting: " ++ j.input_path)] else [])
      ++ (if j.just_print then [] else [Event.remove j.input_path])
  else []) ++
  (if j.report_start = false ∧ 1 ≤ j.verbose then
    [Event.print (progressLine ("completed") numerator denominator j.input_path)]
  else [])

/-- Result of one `handle_maybe_done` call: the exception if one was raised,
the updated job object, the returned `self.done` value, and the emitted
events. -/
structure PollResult where
  err? : Option RunError
  job : JobState
  isDone : Bool
  events : List Event
  deriving DecidableEq, Repr

/-- `Job.handle_maybe_done(numerator, denominator)`. -/
def handle_maybe_done (env : Env) (t : Nat) (j : JobState)
    (numerator denominator : Nat) : PollResult :=
  if j.done then ⟨some RunError.asdf, j, false, []⟩
  else
    match pollPhase env t j with
    | (some e, j1) => ⟨some e, j1, false, []⟩
    | (none, j1) =>
        if j1.done then ⟨none, j1, true, terminalEvents j1 numerator denominator⟩
        else ⟨none, j1, false, []⟩

end Job

/-! ## The discovery / classification loop of `main` -/

def audio_file_extensions : List String :=
  [".aac", ".flac", ".mp3", ".m4a", ".ogg", ".wma", ".wav"]

def video_file_extensions : List String :=
  [".webm", ".mp4", ".mkv", ".flv"]

/-- `any(file_path.endswith(ext) for ext in audio_file_extensions)`. -/
def isAudioName (p : String) : Bool :=
  audio_file_extensions.any (fun e => str_endswith p e)

/-- `any(file_path.endswith(ext) for ext in video_file_extensions)`. -/
def isVideoName (p : String) : Bool :=
  video_file_extensions.any (fun e => str_endswith p e)

/-- A path for which `main` creates a Job: not classified as already-audio
(checked first), and matching a video extension. -/
def convertible (p : String) : Bool :=
  !isAudioName p && isVideoName p

/-- The accumulators of the discovery loop in `main`.  The Python
`handled_files` set is modelled as the list of distinct paths in first-seen
order; membership in it is exactly membership in the set. -/
structure ScanState where
  handled : List String
  total : Nat
  already_audio : Nat
  dup : Nat
  videos : List String
  unrecognized : List String
  deriving DecidableEq, Repr

def initScan : ScanState := ⟨[], 0, 0, 0, [], []⟩

/-- One iteration of the discovery loop: count the file, skip it as a
duplicate if already handled, otherwise classify it as already-audio,
video (job candidate), or unrecognized. -/
def scanFile (s : ScanState) (p : String) : ScanState :=
  let s1 := { s with total := s.total + 1 }
  if p ∈ s1.handled then { s1 with dup := s1.dup + 1 }
  else
    let s2 := { s1 with handled := s1.handled ++ [p] }
    if isAudioName p then { s2 with already_audio := s2.already_audio + 1 }
    else if isVideoName p then { s2 with videos := s2.videos ++ [p] }
    else { s2 with unrecognized := s2.unrecognized ++ [p] }

/-- The whole discovery loop over the ordered sequence of discovered file
paths (the output of `get_files_in` over all roots). -/
def scanFiles (paths : List String) : ScanState :=
  paths.foldl scanFile initScan

/-! ## The scheduler: `drain_some_jobs` and the submission loop of `main` -/

/-- Loop invariant of the discovery loop: after processing the prefix `pre`
of the discovered paths, `handled` is the list of distinct paths of `pre`
in first-seen order, `videos` holds each convertible path of `pre` exactly
once, `total` counts all occurrences, and `dup` counts exactly the repeated
occurrences. -/
def ScanInv (pre : List String) (s : ScanState) : Prop :=
  (∀ q, q ∈ s.handled ↔ q ∈ pre) ∧
  s.handled.Nodup ∧
  (∀ q, s.videos.count q =
    if q ∈ pre ∧ convertible q = true then 1 else 0) ∧
  s.total = pre.length ∧
  s.dup + s.handled.length = pre.length

/-- `parallel_count` as `main` computes it: `options.jobs`, forced to 1 when
just printing. -/
def effectiveParallelCount (options : Options) : Int :=
  if options.just_print then 1 else options.jobs

/-- The state threaded through the submission loop and `drain_some_jobs`:
the `active_jobs` list, the two numerators, the sweep clock, the next fresh
pid, the event trace, the trace of active-set sizes observed after every
append and after every sweep, the pending exception, and whether the run is
blocked forever in `os.wait` (fuel exhausted). -/
structure RunState where
  active : List JobState
  linear_num : Nat
  parallel_num : Nat
  time : Nat
  nextPid : Nat
  events : List Event
  sizes : List Nat
  error? : Option RunError
  blocked : Bool
  deriving Repr

/-- Result of one cleanup sweep (`for i in range(len(active_jobs)-1, -1, -1)`)
over the active list. -/
structure SweepResult where
  jobs : List JobState
  num : Nat
  events : List Event
  err? : Option RunError
  deriving Repr

/-- One cleanup sweep.  Python iterates indices from high to low, deleting
in place, so the tail of the list (the higher indices) is processed first;
a job whose `handle_maybe_done` returns true is removed and the parallel
numerator incremented; an exception aborts the sweep leaving the remaining
lower-indexed jobs (including the raising one) in the list. -/
def sweepJobs (env : Env) (t den : Nat) : List JobState → Nat → SweepResult
  | [], num => ⟨[], num, [], none⟩
  | j :: rest, num =>
      let r := sweepJobs env t den rest num
      match r.err? with
      | some e => ⟨j :: r.jobs, r.num, r.events, some e⟩
      | none =>
          let h := Job.handle_maybe_done env t j r.num den
          match h.err? with
          | some e => ⟨j :: r.jobs, r.num, r.events ++ h.events, some e⟩
          | none =>
              if h.isDone then ⟨r.jobs, r.num + 1, r.events ++ h.events, none⟩
              else ⟨h.job :: r.jobs, r.num, r.events ++ h.events, none⟩

/-- The effect on the run state of one cleanup sweep of `drain_some_jobs`:
the surviving jobs, the advanced numerator, the sweep's events, the
observed size of the active list after the sweep, and the sweep's
exception, if any. -/
def drainStep (env : Env) (den : Nat) (s : RunState) : RunState :=
  { s with
      active := (sweepJobs env s.time den s.active s.parallel_num).jobs,
      parallel_num := (sweepJobs env s.time den s.active s.parallel_num).num,
      events := s.events ++
        (sweepJobs env s.time den s.active s.parallel_num).events,
      sizes := s.sizes ++
        [(sweepJobs env s.time den s.active s.parallel_num).jobs.length],
      error? := (sweepJobs env s.time den s.active s.parallel_num).err? }

/-- `drain_some_jobs(down_to_count)`: sweep, propagate a raised exception,
return once the active list is small enough, otherwise `os.wait()` and
repeat.  `fuel` bounds the number of sweeps; running out models blocking
forever in `os.wait`, recorded in `blocked`. -/
def drainLoop (env : Env) (den downTo : Nat) : Nat → RunState → RunState
  | 0, s => { s with blocked := true }
  | fuel + 1, s =>
      match (sweepJobs env s.time den s.active s.parallel_num).err? with
      | some _ => drainStep env den s
      | none =>
          if (sweepJobs env s.time den s.active s.parallel_num).jobs.length
              ≤ downTo then
            drainStep env den s
          else drainLoop env den downTo fuel
            { drainStep env den s with
                time := s.time + 1,
                events := (drainStep env den s).events ++ [Event.osWait] }

/-- The bookkeeping of one submission: `active_jobs.append(job)` plus the
started job's events, the recorded active-set size, and the bumped linear
numerator and fresh pid. -/
def submitState (s : RunState) (j1 : JobState) (evs : List Event) :
    RunState :=
  { s with active := s.active ++ [j1],
           events := s.events ++ evs,
           sizes := s.sizes ++ [s.active.length + 1],
           linear_num := s.linear_num + 1,
           nextPid := s.nextPid + 1 }

/-- The per-file body of the submission loop of `main`: construct the Job,
append it to `active_jobs`, start it with the linear numerator, and, when
the parallel count is positive, drain down to `parallel_count - 1`.
A pending exception or a blocked drain stops the loop (the exception
propagates out of `main`; a blocked `os.wait` never returns). -/
def submitLoop (env : Env) (options : Options) (sfm : Bool)
    (pc : Int) (den fuel : Nat) : List String → RunState → RunState
  | [], s => s
  | p :: rest, s =>
      if s.error?.isSome || s.blocked then s
      else
        let j1 :=
          (Job.start (Job.init p sfm options pc) s.linear_num den s.nextPid).1
        let evs :=
          (Job.start (Job.init p sfm options pc) s.linear_num den s.nextPid).2
        let s2 := if 0 < pc then
            drainLoop env den (pc - 1).toNat fuel (submitState s j1 evs)
          else submitState s j1 evs
        submitLoop env options sfm pc den fuel rest s2

def initRun (events0 : List Event) : RunState :=
  ⟨[], 1, 1, 0, 0, events0, [], none, false⟩

/-- The summary block printed at the end of `main` at verbosity ≥ 1. -/
def summaryEvents (scan : ScanState) : List Event :=
  [Event.print ("")] ++
  (if scan.dup ≠ 0 then
    [Event.print ("ignored " ++ toString scan.dup ++ " duplicate files")] else []) ++
  (if scan.already_audio ≠ 0 then
    [Event.print ("ignored " ++ toString scan.already_audio ++ " already-audio files")] else []) ++
  (if 0 < scan.unrecognized.length then
    [Event.print ("ignored " ++ toString scan.unrecognized.length ++ " unrecognized files")] else []) ++
  (if 0 < scan.videos.length then
    [Event.print ("converted " ++ toString scan.videos.length ++ " video files")] else [])

/-- The `single_file_mode` flag as recomputed by `main` (turned off by an
`--output` ending in the separator) together with the `should_mkdir`
variable. -/
def sfmAndMkdir (scan : ScanState) (options : Options) :
    Bool × Option String :=
  let sfm0 := scan.total == 1
  match options.output with
  | none => (sfm0, (none : Option String))
  | some out =>
      let sfm1 := if str_endswith out ("/") then false else sfm0
      (sfm1, if sfm1 then none else some out)

/-- The `os.mkdir` performed by `main` when `should_mkdir` is set, the
directory does not exist, and this is not a dry run. -/
def mkdirEvents (env : Env) (options : Options)
    (should_mkdir : Option String) : List Event :=
  match should_mkdir with
  | some d =>
      if env.isdir d = false ∧ options.just_print = false then [Event.mkdir d]
      else []
  | none => []

/-- The run state after the submission loop of `main` over the video files. -/
def afterSubmit (env : Env) (options : Options) (fuel : Nat)
    (scan : ScanState) : RunState :=
  let sm := sfmAndMkdir scan options
  submitLoop env options sm.1 (effectiveParallelCount options)
    scan.videos.length fuel scan.videos (initRun (mkdirEvents env options sm.2))

/-- The run state after the trailing `drain_some_jobs(0)` of `main` (skipped
when an exception is already propagating or the run is blocked). -/
def afterFinalDrain (env : Env) (options : Options) (fuel : Nat)
    (scan : ScanState) : RunState :=
  if (afterSubmit env options fuel scan).error?.isSome ||
      (afterSubmit env options fuel scan).blocked then
    afterSubmit env options fuel scan
  else drainLoop env scan.videos.length 0 fuel
    (afterSubmit env options fuel scan)

/-- The summary block of `main`, appended only when the run finished
normally and verbosity is at least 1. -/
def finalize (options : Options) (scan : ScanState) (s2 : RunState) :
    RunState :=
  if s2.error?.isSome || s2.blocked then s2
  else if 1 ≤ options.verbose then
    { s2 with events := s2.events ++ summaryEvents scan }
  else s2

/-- `main(roots, options)`, taking the ordered sequence of discovered file
paths as input (directory walking is out of scope): classify and
deduplicate, abort on unrecognized files unless ignored, compute the
single-file mode and output-directory creation, submit every video file
with a drain after each submission when the parallel count is positive, a
final drain to zero, then the summary. -/
def runAll (env : Env) (options : Options) (fuel : Nat)
    (paths : List String) : RunState :=
  let scan := scanFiles paths
  if 0 < scan.unrecognized.length ∧ options.ignore_unrecognized = false then
    { initRun [] with error? := some (RunError.unrecognizedExit scan.unrecognized) }
  else finalize options scan (afterFinalDrain env options fuel scan)

/-! ## Concrete fixtures used by witnesses and counterexamples -/

/-- An environment where every process has exited immediately, every file
has size 0, and no directory exists. -/
def envTriv : Env := ⟨fun _ _ => true, fun _ => 0, fun _ => 0, fun _ => false⟩

def jobC2 : JobState :=
  { input_path := "in.mp4", output_path := "in.mp4.mka", report_start := true,
    verbose := 0, just_print := false, in_place := false,
    skip_sanity_check := false, process := some 0, done := false }

/-- Input size 2,000,000 bytes, output size 50,000 bytes. -/
def envC2 : Env :=
  ⟨fun _ _ => true, fun _ => 0,
   fun p => if p = "in.mp4" then 2000000 else 50000, fun _ => false⟩

/-- A dry-run job in in-place mode. -/
def jobC4 : JobState :=
  { input_path := "a.mp4", output_path := "a.mp4.mka", report_start := true,
    verbose := 0, just_print := true, in_place := true,
    skip_sanity_check := false, process := none, done := false }

/-- An in-place job that is not a dry run and passes the sanity check. -/
def jobC4w : JobState :=
  { jobC4 with just_print := false, skip_sanity_check := true,
               process := some 0 }

def jobC5 : JobState :=
  { input_path := "a.mp4", output_path := "a.mp4.mka", report_start := true,
    verbose := 0, just_print := false, in_place := false,
    skip_sanity_check := false, process := some 0, done := false }

/-- The process exits with status 1; both files have size 2,000,000. -/
def envC5 : Env := ⟨fun _ _ => true, fun _ => 1, fun _ => 2000000, fun _ => false⟩

def optsC6 : Options :=
  { verbose := 1, in_place := false, just_print := false,
    ignore_unrecognized := false, skip_sanity_check := true,
    output := none, jobs := 1 }

/-- A job constructed by `main` with parallel count 1 while
`single_file_mode` is false (a two-file run). -/
def jobC6 : JobState := Job.init ("a.mp4") false optsC6 1

/-- A dry-run job with in-place mode requested, at verbosity 1. -/
def jobC7 : JobState :=
  { input_path := "a.mp4", output_path := "a.mp4.mka", report_start := false,
    verbose := 1, just_print := true, in_place := true,
    skip_sanity_check := false, process := none, done := false }

def optsC1 : Options :=
  { verbose := 0, in_place := false, just_print := false,
    ignore_unrecognized := false, skip_sanity_check := true,
    output := none, jobs := 2 }

/-- Processes exit from sweep time 1 on. -/
def envC1 : Env :=
  ⟨fun t _ => decide (1 ≤ t), fun _ => 0, fun _ => 0, fun _ => false⟩

def optsC3 : Options :=
  { verbose := 1, in_place := false, just_print := false,
    ignore_unrecognized := false, skip_sanity_check := false,
    output := none, jobs := 1 }

/-- The first job's conversion is implausibly small (input 2,000,000 bytes,
output 50,000 bytes); the second job's output would be fine. -/
def envC3 : Env :=
  ⟨fun _ _ => true, fun _ => 0,
   fun p => if p = "a.mp4" then 2000000
            else if p = "a.mp4.mka" then 50000 else 900000,
   fun _ => false⟩

/-! ## Basic lemmas about strings and the Job lifecycle -/

theorem string_ne_of_head {a b : String}
    (h : a.data.head? ≠ b.data.head?) : a ≠ b := fun he => h (he ▸ rfl)

theorem progressLine_head (verb : String) (num den : Nat) (p : String) :
    (Job.progressLine verb num den p).data.head? = some '[' := by
  have hbr : ("[" : String).data = ['['] := rfl
  simp [Job.progressLine, String.data_append, hbr]

theorem joinSpace_cmd_head (j : JobState) :
    (joinSpace (Job.build_cmd j)).data.head? = some 'f' := by
  have hff : ("ffmpeg" : String).data = ['f', 'f', 'm', 'p', 'e', 'g'] := rfl
  unfold Job.build_cmd
  split <;> simp [joinSpace, String.data_append, hff]

theorem deleting_line_head (p : String) :
    ("deleting: " ++ p).data.head? = some 'd' := by
  have hdl : ("deleting: " : String).data =
      ['d', 'e', 'l', 'e', 't', 'i', 'n', 'g', ':', ' '] := rfl
  simp [String.data_append, hdl]

theorem pollPhase_snd (env : Env) (t : Nat) (j : JobState) :
    (Job.pollPhase env t j).2 = j ∨
    (Job.pollPhase env t j).2 = { j with done := true } := by
  unfold Job.pollPhase
  split
  · exact Or.inr rfl
  · split
    · exact Or.inl rfl
    · split
      · split
        · exact Or.inr rfl
        · split
          · exact Or.inr rfl
          · exact Or.inr rfl
      · exact Or.inl rfl

theorem pollPhase_no_asdf (env : Env) (t : Nat) (j : JobState) :
    (Job.pollPhase env t j).1 ≠ some RunError.asdf := by
  unfold Job.pollPhase
  split
  · simp
  · split
    · simp
    · split
      · split
        · simp
        · split <;> simp
      · simp

theorem handle_eq (env : Env) (t : Nat) (j : JobState) (num den : Nat)
    (hd : j.done = false) :
    Job.handle_maybe_done env t j num den =
      match Job.pollPhase env t j with
      | (some e, j1) => ⟨some e, j1, false, []⟩
      | (none, j1) =>
          if j1.done then ⟨none, j1, true, Job.terminalEvents j1 num den⟩
          else ⟨none, j1, false, []⟩ := by
  unfold Job.handle_maybe_done
  rw [if_neg (by simp [hd])]

theorem pollPhase_of_poll (env : Env) (t : Nat) (j : JobState) (pid : Nat)
    (hjp : j.just_print = false) (hpr : j.process = some pid)
    (hpoll : env.poll t pid = true) (hsk : j.skip_sanity_check = false) :
    Job.pollPhase env t j =
      if 1000000 < env.fileSize j.input_path ∧
          env.fileSize j.output_path < 100000 then
        (some (RunError.outputTooSmall j.output_path), { j with done := true })
      else (none, { j with done := true }) := by
  unfold Job.pollPhase
  rw [if_neg (by simp [hjp]), hpr]
  simp [hpoll, hsk]

/-- Claim C2: with the process exited and the sanity check enabled,
`handle_maybe_done` fails with `OutputTooSmall` exactly when the input file
exceeds 1,000,000 bytes and the output file is below 100,000 bytes; in
every other size combination the job completes. -/
theorem sanity_check_gate (env : Env) (t : Nat) (j : JobState)
    (num den pid : Nat) (hd : j.done = false) (hjp : j.just_print = false)
    (hpr : j.process = some pid) (hpoll : env.poll t pid = true)
    (hsk : j.skip_sanity_check = false) :
    ((Job.handle_maybe_done env t j num den).err? =
        some (RunError.outputTooSmall j.output_path) ↔
      (1000000 < env.fileSize j.input_path ∧
       env.fileSize j.output_path < 100000))
  ∧ (¬(1000000 < env.fileSize j.input_path ∧
        env.fileSize j.output_path < 100000) →
      (Job.handle_maybe_done env t j num den).err? = none ∧
      (Job.handle_maybe_done env t j num den).isDone = true) := by
  rw [handle_eq env t j num den hd,
      pollPhase_of_poll env t j pid hjp hpr hpoll hsk]
  by_cases hc : 1000000 < env.fileSize j.input_path ∧
      env.fileSize j.output_path < 100000
  · simp [hc]
  · simp [hc]

/-- Witness for `sanity_check_gate` at the spec's test vector: input
2,000,000 bytes and output 50,000 bytes fail with `OutputTooSmall`. -/
theorem sanity_check_gate_witness :
    (Job.handle_maybe_done envC2 0 jobC2 1 1).err? =
      some (RunError.outputTooSmall jobC2.output_path) :=
  ((sanity_check_gate envC2 0 jobC2 1 1 0 rfl rfl rfl rfl rfl).1).mpr
    (by decide)

/-! ## Membership in the terminal-step and start-step event lists -/

theorem remove_mem_terminalEvents (j : JobState) (num den : Nat) (q : String) :
    (Event.remove q ∈ Job.terminalEvents j num den) ↔
      (q = j.input_path ∧ j.in_place = true ∧ j.just_print = false) := by
  unfold Job.terminalEvents
  by_cases h1 : j.in_place = true <;> by_cases h2 : 1 ≤ j.verbose <;>
    by_cases h3 : j.just_print = true <;>
    by_cases h4 : j.report_start = false <;>
    simp [h1, h2, h3, h4]

theorem spawn_not_mem_terminalEvents (j : JobState) (num den : Nat)
    (c : List String) : Event.spawn c ∉ Job.terminalEvents j num den := by
  unfold Job.terminalEvents
  by_cases h1 : j.in_place = true <;> by_cases h2 : 1 ≤ j.verbose <;>
    by_cases h3 : j.just_print = true <;>
    by_cases h4 : j.report_start = false <;>
    simp [h1, h2, h3, h4]

theorem mkdir_not_mem_terminalEvents (j : JobState) (num den : Nat)
    (q : String) : Event.mkdir q ∉ Job.terminalEvents j num den := by
  unfold Job.terminalEvents
  by_cases h1 : j.in_place = true <;> by_cases h2 : 1 ≤ j.verbose <;>
    by_cases h3 : j.just_print = true <;>
    by_cases h4 : j.report_start = false <;>
    simp [h1, h2, h3, h4]

theorem completed_mem_terminalEvents (j : JobState) (num den : Nat) :
    (Event.print (Job.progressLine ("completed") num den j.input_path)
        ∈ Job.terminalEvents j num den) ↔
      (j.report_start = false ∧ 1 ≤ j.verbose) := by
  have hne : Job.progressLine ("completed") num den j.input_path ≠
      "deleting: " ++ j.input_path :=
    string_ne_of_head (by rw [progressLine_head, deleting_line_head]; decide)
  unfold Job.terminalEvents
  by_cases h1 : j.in_place = true <;> by_cases h2 : 1 ≤ j.verbose <;>
    by_cases h3 : j.just_print = true <;>
    by_cases h4 : j.report_start = false <;>
    simp [h1, h2, h3, h4, hne]

theorem start_fst (j : JobState) (num den pid : Nat) :
    (Job.start j num den pid).1 =
      if j.just_print = true then j else { j with process := some pid } := by
  unfold Job.start
  by_cases h : j.just_print = true <;> simp [h]

theorem start_done (j : JobState) (num den pid : Nat) :
    (Job.start j num den pid).1.done = j.done := by
  rw [start_fst]
  by_cases h : j.just_print = true <;> simp [h]

theorem start_events (j : JobState) (num den pid : Nat) :
    (Job.start j num den pid).2 =
      (if j.report_start = true ∧ 1 ≤ j.verbose then
        [Event.print (Job.progressLine ("converting") num den j.input_path)]
      else []) ++
      [if j.just_print = true then
        Event.print (joinSpace (Job.build_cmd j))
      else Event.spawn (Job.build_cmd j)] := by
  unfold Job.start
  by_cases h : j.just_print = true <;> simp [h]

theorem converting_mem_start (j : JobState) (num den pid : Nat) :
    (Event.print (Job.progressLine ("converting") num den j.input_path)
        ∈ (Job.start j num den pid).2) ↔
      (j.report_start = true ∧ 1 ≤ j.verbose) := by
  have hne : Job.progressLine ("converting") num den j.input_path ≠
      joinSpace (Job.build_cmd j) :=
    string_ne_of_head (by rw [progressLine_head, joinSpace_cmd_head]; decide)
  rw [start_events]
  by_cases h1 : j.report_start = true <;> by_cases h2 : 1 ≤ j.verbose <;>
    by_cases h3 : j.just_print = true <;> simp [h1, h2, h3, hne]

theorem spawn_mem_start (j : JobState) (num den pid : Nat) (c : List String) :
    (Event.spawn c ∈ (Job.start j num den pid).2) ↔
      (j.just_print = false ∧ c = Job.build_cmd j) := by
  rw [start_events]
  by_cases h1 : j.report_start = true ∧ 1 ≤ j.verbose <;>
    by_cases h3 : j.just_print = true <;> simp [h1, h3]

/-! ## Claim C4: in-place deletion -/

/-- Claim C4 counterexample: `jobC4` runs in in-place mode and reaches the
Completed state (`isDone = true`, no exception), yet its input file is
never deleted, because the job is also a dry run — so "deleted if and only
if Completed" fails as stated. -/
theorem inplace_delete_counterexample :
    jobC4.in_place = true ∧
    (Job.handle_maybe_done envTriv 0 jobC4 1 1).err? = none ∧
    (Job.handle_maybe_done envTriv 0 jobC4 1 1).isDone = true ∧
    Event.remove jobC4.input_path ∉
      (Job.handle_maybe_done envTriv 0 jobC4 1 1).events := by
  decide

/-- Claim C4 (amended: ... except in dry-run mode, where nothing is ever
deleted): outside in-place mode no input is deleted; a job that fails
(raises) deletes nothing; and in in-place non-dry-run mode the input file
is deleted exactly when the job reaches Completed. -/
theorem handle_eq_some (env : Env) (t : Nat) (j : JobState) (num den : Nat)
    (e : RunError) (j1 : JobState) (hd : j.done = false)
    (hp : Job.pollPhase env t j = (some e, j1)) :
    Job.handle_maybe_done env t j num den = ⟨some e, j1, false, []⟩ := by
  rw [handle_eq env t j num den hd]
  simp [hp]

theorem handle_eq_done (env : Env) (t : Nat) (j : JobState) (num den : Nat)
    (j1 : JobState) (hd : j.done = false)
    (hp : Job.pollPhase env t j = (none, j1)) (h1 : j1.done = true) :
    Job.handle_maybe_done env t j num den =
      ⟨none, j1, true, Job.terminalEvents j1 num den⟩ := by
  rw [handle_eq env t j num den hd]
  simp [hp, h1]

theorem handle_eq_not_done (env : Env) (t : Nat) (j : JobState)
    (num den : Nat) (j1 : JobState) (hd : j.done = false)
    (hp : Job.pollPhase env t j = (none, j1)) (h1 : j1.done = false) :
    Job.handle_maybe_done env t j num den = ⟨none, j1, false, []⟩ := by
  rw [handle_eq env t j num den hd]
  simp [hp, h1]

theorem inplace_delete_iff (env : Env) (t : Nat) (j : JobState)
    (num den : Nat) (hd : j.done = false) :
    (j.in_place = false →
      Event.remove j.input_path ∉
        (Job.handle_maybe_done env t j num den).events)
  ∧ ((Job.handle_maybe_done env t j num den).err?.isSome →
      (Job.handle_maybe_done env t j num den).events = [])
  ∧ (j.in_place = true → j.just_print = false →
      (Event.remove j.input_path ∈
          (Job.handle_maybe_done env t j num den).events ↔
        ((Job.handle_maybe_done env t j num den).err? = none ∧
         (Job.handle_maybe_done env t j num den).isDone = true))) := by
  rcases hp : Job.pollPhase env t j with ⟨e?, j1⟩
  have hj1 : j1 = j ∨ j1 = { j with done := true } := by
    have h := pollPhase_snd env t j
    rw [hp] at h
    exact h
  have hip : j1.in_place = j.in_place := by
    rcases hj1 with h | h <;> subst h <;> rfl
  have hjp1 : j1.just_print = j.just_print := by
    rcases hj1 with h | h <;> subst h <;> rfl
  have hin : j1.input_path = j.input_path := by
    rcases hj1 with h | h <;> subst h <;> rfl
  cases e? with
  | some e =>
      rw [handle_eq_some env t j num den e j1 hd hp]
      simp
  | none =>
      by_cases hdone : j1.done = true
      · rw [handle_eq_done env t j num den j1 hd hp hdone]
        refine ⟨?_, ?_, ?_⟩
        · intro h0
          simp [remove_mem_terminalEvents, hip, h0]
        · intro hsome
          simp at hsome
        · intro h0 h1
          simp [remove_mem_terminalEvents, hin, hip, hjp1, h0, h1]
      · have hdone' : j1.done = false := by simpa using hdone
        rw [handle_eq_not_done env t j num den j1 hd hp hdone']
        simp

/-- Witness for `inplace_delete_iff`: the in-place non-dry-run job `jobC4w`
completes, and its input file is indeed removed. -/
theorem inplace_delete_iff_witness :
    Event.remove jobC4w.input_path ∈
      (Job.handle_maybe_done envTriv 0 jobC4w 1 1).events :=
  ((inplace_delete_iff envTriv 0 jobC4w 1 1 rfl).2.2 rfl rfl).mpr (by decide)

/-! ## Claim C5: exit status of the external tool -/

/-- Claim C5 (code bug): the code never inspects the exit status of the
spawned process.  `jobC5`'s process exits with status 1 — a nonzero exit —
its sizes pass the sanity check, and `handle_maybe_done` nevertheless
transitions the job to Completed with no failure of any kind, instead of
the `ExternalToolNonzeroExit` failure the claim requires. -/
theorem nonzero_exit_not_failure :
    envC5.exitStatus 0 = 1 ∧
    jobC5.process = some 0 ∧
    (Job.handle_maybe_done envC5 0 jobC5 1 1).err? = none ∧
    (Job.handle_maybe_done envC5 0 jobC5 1 1).isDone = true := by
  decide

/-! ## Claim C7: dry-run mode -/

theorem cmdprint_mem_start (j : JobState) (num den pid : Nat)
    (hjp : j.just_print = true) :
    Event.print (joinSpace (Job.build_cmd j)) ∈ (Job.start j num den pid).2 := by
  rw [start_events]
  simp [hjp]

/-- Claim C7: in dry-run mode `start` spawns no process (the process handle
is unchanged and no spawn event is emitted) and prints exactly the
space-joined constructed command; the first poll then completes the job
with no exception and without creating or deleting any file. -/
theorem dry_run_spec (j : JobState) (num den pid n2 : Nat) (env : Env)
    (t : Nat) (hjp : j.just_print = true) (hd : j.done = false) :
    ((Job.start j num den pid).1.process = j.process)
  ∧ (∀ c, Event.spawn c ∉ (Job.start j num den pid).2)
  ∧ (Event.print (joinSpace (Job.build_cmd j)) ∈ (Job.start j num den pid).2)
  ∧ ((Job.handle_maybe_done env t (Job.start j num den pid).1 n2 den).err?
      = none)
  ∧ ((Job.handle_maybe_done env t (Job.start j num den pid).1 n2 den).isDone
      = true)
  ∧ (∀ q, Event.remove q ∉
      (Job.handle_maybe_done env t (Job.start j num den pid).1 n2 den).events)
  ∧ (∀ c, Event.spawn c ∉
      (Job.handle_maybe_done env t (Job.start j num den pid).1 n2 den).events)
  ∧ (∀ q, Event.mkdir q ∉
      (Job.handle_maybe_done env t (Job.start j num den pid).1 n2 den).events)
    := by
  have hfst : (Job.start j num den pid).1 = j := by
    rw [start_fst]
    simp [hjp]
  have hpp : Job.pollPhase env t j = (none, { j with done := true }) := by
    unfold Job.pollPhase
    rw [if_pos hjp]
  have hh : Job.handle_maybe_done env t (Job.start j num den pid).1 n2 den =
      ⟨none, { j with done := true }, true,
        Job.terminalEvents { j with done := true } n2 den⟩ := by
    rw [hfst]
    exact handle_eq_done env t j n2 den _ hd hpp rfl
  refine ⟨?_, ?_, ?_, ?_, ?_, ?_, ?_, ?_⟩
  · rw [hfst]
  · intro c
    rw [spawn_mem_start]
    simp [hjp]
  · exact cmdprint_mem_start j num den pid hjp
  · rw [hh]
  · rw [hh]
  · intro q
    simp only [hh]
    simp [remove_mem_terminalEvents, hjp]
  · intro c
    simp only [hh]
    exact spawn_not_mem_terminalEvents _ n2 den c
  · intro q
    simp only [hh]
    exact mkdir_not_mem_terminalEvents _ n2 den q

/-- Witness for `dry_run_spec` at the dry-run in-place job `jobC7`. -/
theorem dry_run_spec_witness :
    Event.print (joinSpace (Job.build_cmd jobC7)) ∈ (Job.start jobC7 1 1 0).2
  ∧ (Job.handle_maybe_done envTriv 0 (Job.start jobC7 1 1 0).1 1 1).isDone
      = true :=
  ⟨(dry_run_spec jobC7 1 1 0 1 envTriv 0 rfl rfl).2.2.1,
   (dry_run_spec jobC7 1 1 0 1 envTriv 0 rfl rfl).2.2.2.2.1⟩

/-! ## Claim C6: progress-reporting modes -/

/-- Claim C6 counterexample: `jobC6` comes from a run with effective
parallel count 1 but `single_file_mode = false` — per the claim's mode
selection this is the concurrent case, so the job should print only the
completion-indexed line — yet the code prints the start-indexed converting
line at `start()` and prints no completed line at the terminal
transition. -/
theorem progress_mode_counterexample :
    Event.print ("[1/2] converting: a.mp4") ∈ (Job.start jobC6 1 2 0).2
  ∧ (Job.handle_maybe_done envTriv 0 (Job.start jobC6 1 2 0).1 1 2).isDone
      = true
  ∧ Event.print ("[1/2] completed: a.mp4") ∉
      (Job.handle_maybe_done envTriv 0 (Job.start jobC6 1 2 0).1 1 2).events
    := by
  decide

/-- Claim C6 (amended: the reporting mode is selected solely by whether the
effective parallel count equals 1 — `single_file_mode` plays no role — and
lines are only printed at verbosity ≥ 1): a job constructed by `main`
reports at start iff the parallel count is 1; the start-indexed converting
line is printed at `start` exactly in start-report mode at verbosity ≥ 1;
the completion-indexed completed line is printed at a clean terminal
transition exactly in completion-report mode at verbosity ≥ 1; and a
start-report job never prints a completed line. -/
theorem progress_mode_selection (options : Options) (p : String)
    (sfm : Bool) (j : JobState) (num den pid : Nat) (env : Env) (t : Nat)
    (hd : j.done = false) :
    ((Job.init p sfm options (effectiveParallelCount options)).report_start
        = (effectiveParallelCount options == 1))
  ∧ ((Event.print (Job.progressLine ("converting") num den j.input_path)
        ∈ (Job.start j num den pid).2) ↔
      (j.report_start = true ∧ 1 ≤ j.verbose))
  ∧ ((Job.handle_maybe_done env t j num den).err? = none →
     (Job.handle_maybe_done env t j num den).isDone = true →
      ((Event.print (Job.progressLine ("completed") num den j.input_path)
          ∈ (Job.handle_maybe_done env t j num den).events) ↔
        (j.report_start = false ∧ 1 ≤ j.verbose)))
  ∧ (j.report_start = true →
      Event.print (Job.progressLine ("completed") num den j.input_path)
        ∉ (Job.handle_maybe_done env t j num den).events) := by
  rcases hp : Job.pollPhase env t j with ⟨e?, j1⟩
  have hj1 : j1 = j ∨ j1 = { j with done := true } := by
    have h := pollPhase_snd env t j
    rw [hp] at h
    exact h
  have hrs : j1.report_start = j.report_start := by
    rcases hj1 with h | h <;> subst h <;> rfl
  have hv : j1.verbose = j.verbose := by
    rcases hj1 with h | h <;> subst h <;> rfl
  have hin : j1.input_path = j.input_path := by
    rcases hj1 with h | h <;> subst h <;> rfl
  refine ⟨rfl, converting_mem_start j num den pid, ?_, ?_⟩
  · cases e? with
    | some e =>
        rw [handle_eq_some env t j num den e j1 hd hp]
        intro h
        simp at h
    | none =>
        by_cases hdone : j1.done = true
        · have hev : (Job.handle_maybe_done env t j num den).events =
              Job.terminalEvents j1 num den := by
            rw [handle_eq_done env t j num den j1 hd hp hdone]
          intro _ _
          rw [hev, show j.input_path = j1.input_path from hin.symm,
              completed_mem_terminalEvents j1 num den, hrs, hv]
        · have hdone' : j1.done = false := by simpa using hdone
          rw [handle_eq_not_done env t j num den j1 hd hp hdone']
          intro _ h
          simp at h
  · intro hrs0
    cases e? with
    | some e =>
        rw [handle_eq_some env t j num den e j1 hd hp]
        simp
    | none =>
        by_cases hdone : j1.done = true
        · have hev : (Job.handle_maybe_done env t j num den).events =
              Job.terminalEvents j1 num den := by
            rw [handle_eq_done env t j num den j1 hd hp hdone]
          rw [hev, show j.input_path = j1.input_path from hin.symm,
              completed_mem_terminalEvents j1 num den, hrs, hrs0]
          simp
        · have hdone' : j1.done = false := by simpa using hdone
          rw [handle_eq_not_done env t j num den j1 hd hp hdone']
          simp

/-- Witness for `progress_mode_selection`: `jobC6` (parallel count 1,
verbosity 1) prints the converting line at `start`. -/
theorem progress_mode_selection_witness :
    Event.print (Job.progressLine ("converting") 1 2 jobC6.input_path) ∈
      (Job.start jobC6 1 2 0).2 :=
  ((progress_mode_selection optsC6 ("a.mp4") false jobC6 1 2 0 envTriv 0
      rfl).2.1).mpr (by decide)

/-! ## Claim C9: output-path derivation -/

/-- Claim C9 counterexample: two distinct input paths with the same
basename map to the same output path in output-directory mode, so pairwise
distinct inputs do not guarantee pairwise distinct derived outputs. -/
theorem output_path_collision :
    derive_output_path ("a/x.mp4") false (some ("d"))
      = derive_output_path ("b/x.mp4") false (some ("d"))
  ∧ ("a/x.mp4" : String) ≠ ("b/x.mp4") := by
  decide

/-- Claim C9 (amended: distinct inputs are only guaranteed distinct outputs
in the default output mode, i.e. with no `--output` configured; an output
directory collides on equal basenames): output-path derivation is a pure
function — equal arguments give equal results — and with no `--output` it
is injective in the input path. -/
theorem output_path_deterministic_injective :
    (∀ p sfm o, derive_output_path p sfm o = derive_output_path p sfm o)
  ∧ (∀ p1 p2 sfm1 sfm2,
      derive_output_path p1 sfm1 none = derive_output_path p2 sfm2 none →
      p1 = p2) := by
  refine ⟨fun p sfm o => rfl, fun p1 p2 sfm1 sfm2 h => ?_⟩
  have h2 : p1 ++ ".mka" = p2 ++ ".mka" := h
  have hdata := congrArg String.data h2
  rw [String.data_append, String.data_append] at hdata
  exact String.ext (List.append_cancel_right hdata)

/-- Witness for `output_path_deterministic_injective`: applying the
injectivity direction at a concrete derivation. -/
theorem output_path_injective_witness :
    derive_output_path ("q.mp4") true none
        = derive_output_path ("q.mp4") false none
  ∧ ("q.mp4" : String) = ("q.mp4") :=
  ⟨by decide,
   output_path_deterministic_injective.2 ("q.mp4") ("q.mp4") true false
     (by decide)⟩

/-! ## Claim C8: one Job per unique convertible path -/

theorem scanFile_step (pre : List String) (s : ScanState) (p : String)
    (h : ScanInv pre s) : ScanInv (pre ++ [p]) (scanFile s p) := by
  obtain ⟨hmem, hnd, hcount, htot, hdup⟩ := h
  by_cases hin : p ∈ s.handled
  · have hp_pre : p ∈ pre := (hmem p).mp hin
    have hstep : scanFile s p =
        { s with total := s.total + 1, dup := s.dup + 1 } := by
      unfold scanFile
      simp [hin]
    rw [hstep]
    have hiff : ∀ q, (q ∈ pre ++ [p]) ↔ q ∈ pre := by
      intro q
      constructor
      · intro hq
        rcases List.mem_append.mp hq with h1 | h1
        · exact h1
        · rw [List.mem_singleton.mp h1]
          exact hp_pre
      · intro hq
        exact List.mem_append.mpr (Or.inl hq)
    refine ⟨?_, hnd, ?_, ?_, ?_⟩
    · intro q
      rw [hiff q]
      exact hmem q
    · intro q
      show List.count q s.videos = _
      rw [hcount q]
      simp [hiff q]
    · show s.total + 1 = (pre ++ [p]).length
      simp only [List.length_append, List.length_singleton]
      omega
    · show s.dup + 1 + s.handled.length = (pre ++ [p]).length
      simp only [List.length_append, List.length_singleton]
      omega
  · have hp_pre : p ∉ pre := fun hq => hin ((hmem p).mpr hq)
    have hmem' : ∀ q, (q ∈ s.handled ++ [p]) ↔ q ∈ pre ++ [p] := by
      intro q
      simp [List.mem_append, hmem q]
    have hnd' : (s.handled ++ [p]).Nodup := by
      simp [List.nodup_append, hnd, hin]
    have hdup' : s.dup + (s.handled ++ [p]).length = (pre ++ [p]).length := by
      simp only [List.length_append, List.length_singleton]
      omega
    have htot' : s.total + 1 = (pre ++ [p]).length := by
      simp [htot]
    by_cases ha : isAudioName p = true
    · have hstep : scanFile s p =
          { s with total := s.total + 1, handled := s.handled ++ [p],
                   already_audio := s.already_audio + 1 } := by
        unfold scanFile
        simp [hin, ha]
      rw [hstep]
      refine ⟨hmem', hnd', ?_, htot', hdup'⟩
      intro q
      show List.count q s.videos = _
      rw [hcount q]
      by_cases hq : q = p
      · subst hq
        simp [hp_pre, convertible, ha]
      · simp [List.mem_append, hq]
    · have ha' : isAudioName p = false := by simpa using ha
      by_cases hv : isVideoName p = true
      · have hstep : scanFile s p =
            { s with total := s.total + 1, handled := s.handled ++ [p],
                     videos := s.videos ++ [p] } := by
          unfold scanFile
          simp [hin, ha', hv]
        rw [hstep]
        refine ⟨hmem', hnd', ?_, htot', hdup'⟩
        intro q
        show List.count q (s.videos ++ [p]) = _
        rw [List.count_append, hcount q, List.count_singleton' q p]
        by_cases hq : q = p
        · subst hq
          simp [hp_pre, convertible, ha', hv, List.mem_append]
        · simp [List.mem_append, hq, Ne.symm hq]
      · have hv' : isVideoName p = false := by simpa using hv
        have hstep : scanFile s p =
            { s with total := s.total + 1, handled := s.handled ++ [p],
                     unrecognized := s.unrecognized ++ [p] } := by
          unfold scanFile
          simp [hin, ha', hv']
        rw [hstep]
        refine ⟨hmem', hnd', ?_, htot', hdup'⟩
        intro q
        show List.count q s.videos = _
        rw [hcount q]
        by_cases hq : q = p
        · subst hq
          simp [hp_pre, convertible, hv']
        · simp [List.mem_append, hq]

theorem scanFiles_inv (l : List String) : ∀ (pre : List String)
    (s : ScanState), ScanInv pre s →
    ScanInv (pre ++ l) (List.foldl scanFile s l) := by
  induction l with
  | nil =>
      intro pre s h
      simpa using h
  | cons p rest ih =>
      intro pre s h
      have h2 := ih (pre ++ [p]) (scanFile s p) (scanFile_step pre s p h)
      rw [List.append_assoc] at h2
      simpa using h2

/-- Claim C8: over any discovered path sequence, `main` creates exactly one
Job (one `videos` entry) per unique convertible path — a path supplied more
than once contributes exactly one entry — the handled set holds each
distinct path once, and the duplicate counter counts exactly the repeated
occurrences (total occurrences minus distinct paths). -/
theorem one_job_per_unique_path (paths : List String) :
    (∀ q, (scanFiles paths).videos.count q =
      if q ∈ paths ∧ convertible q = true then 1 else 0)
  ∧ (scanFiles paths).handled.Nodup
  ∧ (∀ q, q ∈ (scanFiles paths).handled ↔ q ∈ paths)
  ∧ (scanFiles paths).dup + (scanFiles paths).handled.length = paths.length
    := by
  have hbase : ScanInv [] initScan := by
    refine ⟨fun q => Iff.rfl, List.nodup_nil, fun q => ?_, rfl, rfl⟩
    simp [initScan]
  have h := scanFiles_inv paths [] initScan hbase
  rw [List.nil_append] at h
  obtain ⟨hm, hnd, hc, _, hd⟩ := h
  exact ⟨hc, hnd, hm, hd⟩

/-! ## Claim C10: no poll of an already-terminal job -/

theorem handle_no_asdf (env : Env) (t : Nat) (j : JobState) (num den : Nat)
    (hd : j.done = false) :
    (Job.handle_maybe_done env t j num den).err? ≠ some RunError.asdf := by
  rcases hp : Job.pollPhase env t j with ⟨e?, j1⟩
  cases e? with
  | some e =>
      rw [handle_eq_some env t j num den e j1 hd hp]
      have h := pollPhase_no_asdf env t j
      rw [hp] at h
      simpa using h
  | none =>
      by_cases hdone : j1.done = true
      · rw [handle_eq_done env t j num den j1 hd hp hdone]
        simp
      · have hdone' : j1.done = false := by simpa using hdone
        rw [handle_eq_not_done env t j num den j1 hd hp hdone']
        simp

theorem handle_job_done_false (env : Env) (t : Nat) (j : JobState)
    (num den : Nat) (hd : j.done = false)
    (he : (Job.handle_maybe_done env t j num den).err? = none)
    (hnd : (Job.handle_maybe_done env t j num den).isDone = false) :
    (Job.handle_maybe_done env t j num den).job.done = false := by
  rcases hp : Job.pollPhase env t j with ⟨e?, j1⟩
  cases e? with
  | some e =>
      rw [handle_eq_some env t j num den e j1 hd hp] at he
      simp at he
  | none =>
      by_cases hdone : j1.done = true
      · rw [handle_eq_done env t j num den j1 hd hp hdone] at hnd
        simp at hnd
      · have hdone' : j1.done = false := by simpa using hdone
        rw [handle_eq_not_done env t j num den j1 hd hp hdone']
        exact hdone'

theorem sweepJobs_done_false (env : Env) (t den : Nat) :
    ∀ (l : List JobState) (num : Nat), (∀ j ∈ l, j.done = false) →
    (sweepJobs env t den l num).err? ≠ some RunError.asdf ∧
    (∀ j ∈ (sweepJobs env t den l num).jobs, j.done = false) := by
  intro l
  induction l with
  | nil =>
      intro num h
      exact ⟨by simp [sweepJobs], by simp [sweepJobs]⟩
  | cons j rest ih =>
      intro num h
      have hj : j.done = false := h j (List.mem_cons_self j rest)
      have hrest : ∀ j' ∈ rest, j'.done = false :=
        fun j' hj' => h j' (List.mem_cons_of_mem j hj')
      obtain ⟨ihe, ihjobs⟩ := ih num hrest
      simp only [sweepJobs]
      cases hre : (sweepJobs env t den rest num).err? with
      | some e =>
          simp only [hre]
          refine ⟨?_, ?_⟩
          · intro hc
            rw [hre] at ihe
            simp at hc
            simp [hc] at ihe
          · intro j' hj'
            rcases List.mem_cons.mp hj' with h1 | h1
            · rw [h1]
              exact hj
            · exact ihjobs j' h1
      | none =>
          simp only [hre]
          cases hhe : (Job.handle_maybe_done env t j
              (sweepJobs env t den rest num).num den).err? with
          | some e =>
              simp only [hhe]
              refine ⟨?_, ?_⟩
              · intro hc
                have := handle_no_asdf env t j
                  (sweepJobs env t den rest num).num den hj
                rw [hhe] at this
                simp at hc
                simp [hc] at this
              · intro j' hj'
                rcases List.mem_cons.mp hj' with h1 | h1
                · rw [h1]
                  exact hj
                · exact ihjobs j' h1
          | none =>
              simp only [hhe]
              by_cases hid : (Job.handle_maybe_done env t j
                  (sweepJobs env t den rest num).num den).isDone = true
              · simp only [hid, if_pos]
                exact ⟨by simp, ihjobs⟩
              · have hid' : (Job.handle_maybe_done env t j
                    (sweepJobs env t den rest num).num den).isDone = false := by
                  simpa using hid
                simp only [hid', Bool.false_eq_true, if_neg, not_false_iff]
                refine ⟨by simp, ?_⟩
                intro j' hj'
                rcases List.mem_cons.mp hj' with h1 | h1
                · rw [h1]
                  exact handle_job_done_false env t j
                    (sweepJobs env t den rest num).num den hj hhe hid'
                · exact ihjobs j' h1

theorem drain_zero (env : Env) (den dt : Nat) (s : RunState) :
    drainLoop env den dt 0 s = { s with blocked := true } := rfl

theorem drain_succ_err (env : Env) (den dt fuel : Nat) (s : RunState)
    (e : RunError)
    (hre : (sweepJobs env s.time den s.active s.parallel_num).err?
      = some e) :
    drainLoop env den dt (fuel + 1) s = drainStep env den s := by
  simp [drainLoop, hre]

theorem drain_succ_le (env : Env) (den dt fuel : Nat) (s : RunState)
    (hre : (sweepJobs env s.time den s.active s.parallel_num).err? = none)
    (hlen : (sweepJobs env s.time den s.active s.parallel_num).jobs.length
      ≤ dt) :
    drainLoop env den dt (fuel + 1) s = drainStep env den s := by
  simp [drainLoop, hre, hlen]

theorem drain_succ_gt (env : Env) (den dt fuel : Nat) (s : RunState)
    (hre : (sweepJobs env s.time den s.active s.parallel_num).err? = none)
    (hlen : ¬(sweepJobs env s.time den s.active s.parallel_num).jobs.length
      ≤ dt) :
    drainLoop env den dt (fuel + 1) s =
      drainLoop env den dt fuel
        { drainStep env den s with
            time := s.time + 1,
            events := (drainStep env den s).events ++ [Event.osWait] } := by
  simp [drainLoop, hre, hlen]

theorem drainLoop_no_asdf (env : Env) (den dt : Nat) :
    ∀ (fuel : Nat) (s : RunState),
    (∀ j ∈ s.active, j.done = false) →
    s.error? ≠ some RunError.asdf →
    (drainLoop env den dt fuel s).error? ≠ some RunError.asdf ∧
    (∀ j ∈ (drainLoop env den dt fuel s).active, j.done = false) := by
  intro fuel
  induction fuel with
  | zero =>
      intro s h he
      exact ⟨he, h⟩
  | succ fuel ih =>
      intro s h he
      obtain ⟨hswe, hswj⟩ :=
        sweepJobs_done_false env s.time den s.active s.parallel_num h
      cases hre : (sweepJobs env s.time den s.active s.parallel_num).err? with
      | some e =>
          rw [drain_succ_err env den dt fuel s e hre]
          refine ⟨?_, hswj⟩
          show (sweepJobs env s.time den s.active s.parallel_num).err?
            ≠ some RunError.asdf
          exact hswe
      | none =>
          by_cases hlen : (sweepJobs env s.time den s.active
              s.parallel_num).jobs.length ≤ dt
          · rw [drain_succ_le env den dt fuel s hre hlen]
            refine ⟨?_, hswj⟩
            show (sweepJobs env s.time den s.active s.parallel_num).err?
              ≠ some RunError.asdf
            exact hswe
          · rw [drain_succ_gt env den dt fuel s hre hlen]
            exact ih _ hswj hswe

theorem submitLoop_no_asdf (env : Env) (options : Options) (sfm : Bool)
    (pc : Int) (den fuel : Nat) :
    ∀ (l : List String) (s : RunState),
    (∀ j ∈ s.active, j.done = false) →
    s.error? ≠ some RunError.asdf →
    (submitLoop env options sfm pc den fuel l s).error?
        ≠ some RunError.asdf ∧
    (∀ j ∈ (submitLoop env options sfm pc den fuel l s).active,
      j.done = false) := by
  intro l
  induction l with
  | nil =>
      intro s h he
      exact ⟨he, h⟩
  | cons p rest ih =>
      intro s h he
      simp only [submitLoop]
      by_cases hg : (s.error?.isSome || s.blocked) = true
      · simp only [hg, if_pos]
        exact ⟨he, h⟩
      · have hg' : (s.error?.isSome || s.blocked) = false := by simpa using hg
        simp only [hg', Bool.false_eq_true, if_neg, not_false_iff]
        rcases hstart : Job.start (Job.init p sfm options pc) s.linear_num den
            s.nextPid with ⟨j1, evs⟩
        simp only [hstart]
        have hj1 : j1.done = false := by
          have h1 : (Job.start (Job.init p sfm options pc) s.linear_num den
              s.nextPid).1.done = false := by
            rw [start_done]
            rfl
          rw [hstart] at h1
          exact h1
        have hact : ∀ j' ∈ s.active ++ [j1], j'.done = false := by
          intro j' hj'
          rcases List.mem_append.mp hj' with h1 | h1
          · exact h j' h1
          · rw [List.mem_singleton.mp h1]
            exact hj1
        by_cases hpc : 0 < pc
        · simp only [if_pos hpc]
          exact ih _
            (drainLoop_no_asdf env den (pc - 1).toNat fuel
              (submitState s j1 evs) hact he).2
            (drainLoop_no_asdf env den (pc - 1).toNat fuel
              (submitState s j1 evs) hact he).1
        · simp only [if_neg hpc]
          exact ih _ hact he

theorem finalize_fields (options : Options) (scan : ScanState)
    (s : RunState) :
    (finalize options scan s).error? = s.error? ∧
    (finalize options scan s).blocked = s.blocked ∧
    (finalize options scan s).active = s.active ∧
    (finalize options scan s).sizes = s.sizes := by
  unfold finalize
  split
  · exact ⟨rfl, rfl, rfl, rfl⟩
  · split <;> exact ⟨rfl, rfl, rfl, rfl⟩

/-- Claim C10: during a run, `handle_maybe_done` is never invoked on a job
that is already terminal — the drain sweep removes each job in the same
iteration in which it first reports done — so the `raise ASDF` guard branch
is unreachable: no run of `runAll` ever ends with the `asdf` error. -/
theorem no_poll_after_done (env : Env) (options : Options) (fuel : Nat)
    (paths : List String) :
    ((runAll env options fuel paths).error? == some RunError.asdf)
      = false := by
  have key : (runAll env options fuel paths).error? ≠ some RunError.asdf := by
    unfold runAll
    by_cases hu : 0 < (scanFiles paths).unrecognized.length ∧
        options.ignore_unrecognized = false
    · simp only [if_pos hu]
      simp [initRun]
    · simp only [if_neg hu]
      rw [(finalize_fields options (scanFiles paths)
        (afterFinalDrain env options fuel (scanFiles paths))).1]
      unfold afterFinalDrain
      have h1 := submitLoop_no_asdf env options
        (sfmAndMkdir (scanFiles paths) options).1
        (effectiveParallelCount options) (scanFiles paths).videos.length fuel
        (scanFiles paths).videos
        (initRun (mkdirEvents env options
          (sfmAndMkdir (scanFiles paths) options).2))
        (by intro j hj; simp [initRun] at hj) (by simp [initRun])
      have h1' : (afterSubmit env options fuel (scanFiles paths)).error?
            ≠ some RunError.asdf ∧
          ∀ j ∈ (afterSubmit env options fuel (scanFiles paths)).active,
            j.done = false := by
        unfold afterSubmit
        exact h1
      split
      · exact h1'.1
      · exact (drainLoop_no_asdf env (scanFiles paths).videos.length 0 fuel
          (afterSubmit env options fuel (scanFiles paths)) h1'.2 h1'.1).1
  simpa using key

/-! ## Claim C1: the active set is bounded by the concurrency ceiling -/

theorem sweepJobs_length (env : Env) (t den : Nat) :
    ∀ (l : List JobState) (num : Nat),
    (sweepJobs env t den l num).jobs.length ≤ l.length := by
  intro l
  induction l with
  | nil =>
      intro num
      simp [sweepJobs]
  | cons j rest ih =>
      intro num
      have h := ih num
      simp only [sweepJobs]
      cases hre : (sweepJobs env t den rest num).err? with
      | some e =>
          simp only [hre]
          show (j :: (sweepJobs env t den rest num).jobs).length
            ≤ (j :: rest).length
          simp only [List.length_cons]
          omega
      | none =>
          simp only [hre]
          cases hhe : (Job.handle_maybe_done env t j
              (sweepJobs env t den rest num).num den).err? with
          | some e =>
              simp only [hhe]
              show (j :: (sweepJobs env t den rest num).jobs).length
                ≤ (j :: rest).length
              simp only [List.length_cons]
              omega
          | none =>
              simp only [hhe]
              by_cases hid : (Job.handle_maybe_done env t j
                  (sweepJobs env t den rest num).num den).isDone = true
              · simp only [hid, if_pos]
                show (sweepJobs env t den rest num).jobs.length
                  ≤ (j :: rest).length
                simp only [List.length_cons]
                omega
              · have hid' : (Job.handle_maybe_done env t j
                    (sweepJobs env t den rest num).num den).isDone = false := by
                  simpa using hid
                simp only [hid', Bool.false_eq_true, if_neg, not_false_iff]
                show ((Job.handle_maybe_done env t j
                    (sweepJobs env t den rest num).num den).job
                    :: (sweepJobs env t den rest num).jobs).length
                  ≤ (j :: rest).length
                simp only [List.length_cons]
                omega

theorem drainLoop_bound (env : Env) (den dt B : Nat) :
    ∀ (fuel : Nat) (s : RunState), s.active.length ≤ B →
    (∀ n ∈ s.sizes, n ≤ B) →
    (drainLoop env den dt fuel s).active.length ≤ B ∧
    (∀ n ∈ (drainLoop env den dt fuel s).sizes, n ≤ B) := by
  intro fuel
  induction fuel with
  | zero =>
      intro s h1 h2
      exact ⟨h1, h2⟩
  | succ fuel ih =>
      intro s h1 h2
      have hsw := sweepJobs_length env s.time den s.active s.parallel_num
      have hsl : (sweepJobs env s.time den s.active
          s.parallel_num).jobs.length ≤ B := le_trans hsw h1
      have hsz : ∀ n ∈ s.sizes ++ [(sweepJobs env s.time den s.active
          s.parallel_num).jobs.length], n ≤ B := by
        intro n hn
        rcases List.mem_append.mp hn with h | h
        · exact h2 n h
        · rw [List.mem_singleton.mp h]
          exact hsl
      cases hre : (sweepJobs env s.time den s.active s.parallel_num).err? with
      | some e =>
          rw [drain_succ_err env den dt fuel s e hre]
          exact ⟨hsl, hsz⟩
      | none =>
          by_cases hlen : (sweepJobs env s.time den s.active
              s.parallel_num).jobs.length ≤ dt
          · rw [drain_succ_le env den dt fuel s hre hlen]
            exact ⟨hsl, hsz⟩
          · rw [drain_succ_gt env den dt fuel s hre hlen]
            exact ih _ hsl hsz

theorem drainLoop_post (env : Env) (den dt : Nat) :
    ∀ (fuel : Nat) (s : RunState),
    (drainLoop env den dt fuel s).blocked = false →
    (drainLoop env den dt fuel s).error? = none →
    (drainLoop env den dt fuel s).active.length ≤ dt := by
  intro fuel
  induction fuel with
  | zero =>
      intro s hb he
      rw [drain_zero] at hb
      simp at hb
  | succ fuel ih =>
      intro s hb he
      cases hre : (sweepJobs env s.time den s.active s.parallel_num).err? with
      | some e =>
          rw [drain_succ_err env den dt fuel s e hre] at he
          have he' : (sweepJobs env s.time den s.active s.parallel_num).err?
              = none := he
          rw [hre] at he'
          cases he'
      | none =>
          by_cases hlen : (sweepJobs env s.time den s.active
              s.parallel_num).jobs.length ≤ dt
          · rw [drain_succ_le env den dt fuel s hre hlen]
            exact hlen
          · rw [drain_succ_gt env den dt fuel s hre hlen] at hb he ⊢
            exact ih _ hb he

theorem drainLoop_sizes_mono (env : Env) (den dt : Nat) :
    ∀ (fuel : Nat) (s : RunState) (x : Nat), x ∈ s.sizes →
    x ∈ (drainLoop env den dt fuel s).sizes := by
  intro fuel
  induction fuel with
  | zero =>
      intro s x hx
      exact hx
  | succ fuel ih =>
      intro s x hx
      have hx1 : x ∈ s.sizes ++ [(sweepJobs env s.time den s.active
          s.parallel_num).jobs.length] := List.mem_append.mpr (Or.inl hx)
      cases hre : (sweepJobs env s.time den s.active s.parallel_num).err? with
      | some e =>
          rw [drain_succ_err env den dt fuel s e hre]
          exact hx1
      | none =>
          by_cases hlen : (sweepJobs env s.time den s.active
              s.parallel_num).jobs.length ≤ dt
          · rw [drain_succ_le env den dt fuel s hre hlen]
            exact hx1
          · rw [drain_succ_gt env den dt fuel s hre hlen]
            exact ih _ x hx1

theorem submit_cons_stop (env : Env) (options : Options) (sfm : Bool)
    (pc : Int) (den fuel : Nat) (p : String) (rest : List String)
    (s : RunState) (hg : (s.error?.isSome || s.blocked) = true) :
    submitLoop env options sfm pc den fuel (p :: rest) s = s := by
  simp [submitLoop, hg]

theorem submit_cons_pos (env : Env) (options : Options) (sfm : Bool)
    (pc : Int) (den fuel : Nat) (p : String) (rest : List String)
    (s : RunState) (hg : (s.error?.isSome || s.blocked) = false)
    (hpc : 0 < pc) :
    submitLoop env options sfm pc den fuel (p :: rest) s =
      submitLoop env options sfm pc den fuel rest
        (drainLoop env den (pc - 1).toNat fuel (submitState s
          (Job.start (Job.init p sfm options pc) s.linear_num den
            s.nextPid).1
          (Job.start (Job.init p sfm options pc) s.linear_num den
            s.nextPid).2)) := by
  simp [submitLoop, hg, hpc]

theorem submit_cons_nonpos (env : Env) (options : Options) (sfm : Bool)
    (pc : Int) (den fuel : Nat) (p : String) (rest : List String)
    (s : RunState) (hg : (s.error?.isSome || s.blocked) = false)
    (hpc : ¬0 < pc) :
    submitLoop env options sfm pc den fuel (p :: rest) s =
      submitLoop env options sfm pc den fuel rest
        (submitState s
          (Job.start (Job.init p sfm options pc) s.linear_num den
            s.nextPid).1
          (Job.start (Job.init p sfm options pc) s.linear_num den
            s.nextPid).2) := by
  simp [submitLoop, hg, hpc]

theorem submitState_length (s : RunState) (j1 : JobState)
    (evs : List Event) :
    (submitState s j1 evs).active.length = s.active.length + 1 := by
  show (s.active ++ [j1]).length = s.active.length + 1
  simp

theorem submitLoop_bound (env : Env) (options : Options) (sfm : Bool)
    (den fuel : Nat) (pc : Int) (hpc : 1 ≤ pc) :
    ∀ (l : List String) (s : RunState),
    (∀ n ∈ s.sizes, n ≤ pc.toNat) →
    ((s.error?.isSome || s.blocked) = false → s.active.length < pc.toNat) →
    (∀ n ∈ (submitLoop env options sfm pc den fuel l s).sizes,
      n ≤ pc.toNat) ∧
    (((submitLoop env options sfm pc den fuel l s).error?.isSome ||
        (submitLoop env options sfm pc den fuel l s).blocked) = false →
      (submitLoop env options sfm pc den fuel l s).active.length
        < pc.toNat) := by
  intro l
  induction l with
  | nil =>
      intro s h1 h2
      exact ⟨h1, h2⟩
  | cons p rest ih =>
      intro s h1 h2
      by_cases hg : (s.error?.isSome || s.blocked) = true
      · rw [submit_cons_stop env options sfm pc den fuel p rest s hg]
        exact ⟨h1, h2⟩
      · have hg' : (s.error?.isSome || s.blocked) = false := by simpa using hg
        have hlt : s.active.length < pc.toNat := h2 hg'
        have hpc0 : 0 < pc := by omega
        rw [submit_cons_pos env options sfm pc den fuel p rest s hg' hpc0]
        have hsz1 : ∀ n ∈ (submitState s
            (Job.start (Job.init p sfm options pc) s.linear_num den
              s.nextPid).1
            (Job.start (Job.init p sfm options pc) s.linear_num den
              s.nextPid).2).sizes, n ≤ pc.toNat := by
          show ∀ n ∈ s.sizes ++ [s.active.length + 1], n ≤ pc.toNat
          intro n hn
          rcases List.mem_append.mp hn with h | h
          · exact h1 n h
          · rw [List.mem_singleton.mp h]
            omega
        have hact1 : (submitState s
            (Job.start (Job.init p sfm options pc) s.linear_num den
              s.nextPid).1
            (Job.start (Job.init p sfm options pc) s.linear_num den
              s.nextPid).2).active.length ≤ pc.toNat := by
          rw [submitState_length]
          omega
        obtain ⟨hd1, hd2⟩ := drainLoop_bound env den (pc - 1).toNat pc.toNat
          fuel _ hact1 hsz1
        apply ih
        · exact hd2
        · intro hclean
          have hor := Bool.or_eq_false_iff.mp hclean
          have he : (drainLoop env den (pc - 1).toNat fuel (submitState s
              (Job.start (Job.init p sfm options pc) s.linear_num den
                s.nextPid).1
              (Job.start (Job.init p sfm options pc) s.linear_num den
                s.nextPid).2)).error? = none := by
            cases ho : (drainLoop env den (pc - 1).toNat fuel (submitState s
                (Job.start (Job.init p sfm options pc) s.linear_num den
                  s.nextPid).1
                (Job.start (Job.init p sfm options pc) s.linear_num den
                  s.nextPid).2)).error? with
            | none => rfl
            | some e =>
                have h0 := hor.1
                rw [ho] at h0
                simp at h0
          have hlen := drainLoop_post env den (pc - 1).toNat fuel _
            hor.2 he
          omega

theorem submitLoop_unbounded (env : Env) (options : Options) (sfm : Bool)
    (den fuel : Nat) (pc : Int) (hpc : ¬0 < pc) :
    ∀ (l : List String) (s : RunState),
    (s.error?.isSome || s.blocked) = false →
    (submitLoop env options sfm pc den fuel l s).error? = s.error? ∧
    (submitLoop env options sfm pc den fuel l s).blocked = s.blocked ∧
    (submitLoop env options sfm pc den fuel l s).active.length
        = s.active.length + l.length ∧
    (l ≠ [] → s.active.length + l.length
        ∈ (submitLoop env options sfm pc den fuel l s).sizes) := by
  intro l
  induction l with
  | nil =>
      intro s hclean
      refine ⟨rfl, rfl, rfl, ?_⟩
      intro hne
      exact absurd rfl hne
  | cons p rest ih =>
      intro s hclean
      rw [submit_cons_nonpos env options sfm pc den fuel p rest s hclean hpc]
      have hclean1 : ((submitState s
          (Job.start (Job.init p sfm options pc) s.linear_num den
            s.nextPid).1
          (Job.start (Job.init p sfm options pc) s.linear_num den
            s.nextPid).2).error?.isSome ||
          (submitState s
          (Job.start (Job.init p sfm options pc) s.linear_num den
            s.nextPid).1
          (Job.start (Job.init p sfm options pc) s.linear_num den
            s.nextPid).2).blocked) = false := hclean
      obtain ⟨he, hb, hlen, hmem⟩ := ih _ hclean1
      have hlen1 := submitState_length s
        (Job.start (Job.init p sfm options pc) s.linear_num den s.nextPid).1
        (Job.start (Job.init p sfm options pc) s.linear_num den s.nextPid).2
      refine ⟨he, hb, ?_, ?_⟩
      · rw [hlen, hlen1]
        simp only [List.length_cons]
        omega
      · intro _
        by_cases hrest : rest = []
        · subst hrest
          show s.active.length + 1 ∈ _
          have hz : submitLoop env options sfm pc den fuel [] (submitState s
              (Job.start (Job.init p sfm options pc) s.linear_num den
                s.nextPid).1
              (Job.start (Job.init p sfm options pc) s.linear_num den
                s.nextPid).2) = submitState s
              (Job.start (Job.init p sfm options pc) s.linear_num den
                s.nextPid).1
              (Job.start (Job.init p sfm options pc) s.linear_num den
                s.nextPid).2 := rfl
          rw [hz]
          show s.active.length + 1 ∈ s.sizes ++ [s.active.length + 1]
          exact List.mem_append.mpr (Or.inr (List.mem_singleton.mpr rfl))
        · have hm := hmem hrest
          rw [hlen1] at hm
          have harith : s.active.length + 1 + rest.length
              = s.active.length + (rest.length + 1) := by omega
          rw [harith] at hm
          simpa using hm

/-- Claim C1: for every effective concurrency ceiling N ≥ 1, the size of
the active set recorded at every observable point of the run (after each
append and after each drain sweep) never exceeds N — each submission
appends one job and is immediately followed by a drain down to N - 1.  For
N = 0 the set is unbounded during submission — it reaches the full number
of jobs — and only the final drain(0) empties it. -/
theorem active_set_bounded (env : Env) (options : Options) (fuel : Nat)
    (paths : List String) :
    (1 ≤ effectiveParallelCount options →
      ∀ n ∈ (runAll env options fuel paths).sizes,
        (n : Int) ≤ effectiveParallelCount options)
  ∧ (effectiveParallelCount options = 0 →
      ((runAll env options fuel paths).error? = none →
        (runAll env options fuel paths).blocked = false →
        (runAll env options fuel paths).active = [])
      ∧ (((scanFiles paths).unrecognized = [] ∨
            options.ignore_unrecognized = true) →
          (scanFiles paths).videos ≠ [] →
          (scanFiles paths).videos.length
            ∈ (runAll env options fuel paths).sizes)) := by
  by_cases hu : 0 < (scanFiles paths).unrecognized.length ∧
      options.ignore_unrecognized = false
  · have hrw1 : (runAll env options fuel paths).sizes = [] := by
      unfold runAll
      rw [if_pos hu]
      rfl
    have hrw2 : (runAll env options fuel paths).error? =
        some (RunError.unrecognizedExit (scanFiles paths).unrecognized) := by
      unfold runAll
      rw [if_pos hu]
    constructor
    · intro _ n hn
      rw [hrw1] at hn
      simp at hn
    · intro _
      refine ⟨?_, ?_⟩
      · intro he
        rw [hrw2] at he
        simp at he
      · intro hguard hne
        exfalso
        rcases hguard with hg | hg
        · rw [hg] at hu
          simp at hu
        · rw [hg] at hu
          simp at hu
  · have hrw : runAll env options fuel paths =
        finalize options (scanFiles paths)
          (afterFinalDrain env options fuel (scanFiles paths)) := by
      unfold runAll
      rw [if_neg hu]
    obtain ⟨hfe, hfb, hfa, hfs⟩ := finalize_fields options (scanFiles paths)
      (afterFinalDrain env options fuel (scanFiles paths))
    constructor
    · intro hpc n hn
      rw [hrw, hfs] at hn
      have hsub := submitLoop_bound env options
        (sfmAndMkdir (scanFiles paths) options).1
        (scanFiles paths).videos.length fuel
        (effectiveParallelCount options) hpc
        (scanFiles paths).videos
        (initRun (mkdirEvents env options
          (sfmAndMkdir (scanFiles paths) options).2))
        (by intro m hm; simp [initRun] at hm)
        (by intro _; simp [initRun]; omega)
      have hsub' : (∀ m ∈ (afterSubmit env options fuel
            (scanFiles paths)).sizes,
            m ≤ (effectiveParallelCount options).toNat) ∧
          (((afterSubmit env options fuel
              (scanFiles paths)).error?.isSome ||
            (afterSubmit env options fuel (scanFiles paths)).blocked)
              = false →
            (afterSubmit env options fuel (scanFiles paths)).active.length
              < (effectiveParallelCount options).toNat) := by
        unfold afterSubmit
        exact hsub
      have hbound : ∀ m ∈ (afterFinalDrain env options fuel
          (scanFiles paths)).sizes,
          m ≤ (effectiveParallelCount options).toNat := by
        unfold afterFinalDrain
        split
        · exact hsub'.1
        · rename_i hgd
          have hgd' : ((afterSubmit env options fuel
              (scanFiles paths)).error?.isSome ||
              (afterSubmit env options fuel (scanFiles paths)).blocked)
                = false := by
            simpa using hgd
          have hlt := hsub'.2 hgd'
          exact (drainLoop_bound env (scanFiles paths).videos.length 0
            (effectiveParallelCount options).toNat fuel _
            (le_of_lt hlt) hsub'.1).2
      have hn2 := hbound n hn
      omega
    · intro hpc0
      have hnpos : ¬0 < effectiveParallelCount options := by omega
      have hclean0 : ((initRun (mkdirEvents env options
          (sfmAndMkdir (scanFiles paths) options).2)).error?.isSome ||
          (initRun (mkdirEvents env options
            (sfmAndMkdir (scanFiles paths) options).2)).blocked) = false :=
        rfl
      have hub := submitLoop_unbounded env options
        (sfmAndMkdir (scanFiles paths) options).1
        (scanFiles paths).videos.length fuel
        (effectiveParallelCount options) hnpos
        (scanFiles paths).videos
        (initRun (mkdirEvents env options
          (sfmAndMkdir (scanFiles paths) options).2)) hclean0
      have hub' : (afterSubmit env options fuel
            (scanFiles paths)).error? = none ∧
          (afterSubmit env options fuel (scanFiles paths)).blocked = false ∧
          ((scanFiles paths).videos ≠ [] →
            (scanFiles paths).videos.length
              ∈ (afterSubmit env options fuel (scanFiles paths)).sizes) := by
        unfold afterSubmit
        obtain ⟨a, b, c, d⟩ := hub
        refine ⟨a, b, ?_⟩
        intro hne
        have hd := d hne
        simpa [initRun] using hd
      have hgd' : ((afterSubmit env options fuel
          (scanFiles paths)).error?.isSome ||
          (afterSubmit env options fuel (scanFiles paths)).blocked)
            = false := by
        simp [hub'.1, hub'.2.1]
      have hdrw : afterFinalDrain env options fuel (scanFiles paths) =
          drainLoop env (scanFiles paths).videos.length 0 fuel
            (afterSubmit env options fuel (scanFiles paths)) := by
        unfold afterFinalDrain
        rw [if_neg (by simp [hgd'])]
      refine ⟨?_, ?_⟩
      · intro he hb
        rw [hrw, hfa, hdrw]
        rw [hrw, hfe, hdrw] at he
        rw [hrw, hfb, hdrw] at hb
        have hlen := drainLoop_post env (scanFiles paths).videos.length 0
          fuel (afterSubmit env options fuel (scanFiles paths)) hb he
        exact List.length_eq_zero.mp (Nat.le_zero.mp hlen)
      · intro _ hne
        rw [hrw, hfs, hdrw]
        exact drainLoop_sizes_mono env (scanFiles paths).videos.length 0
          fuel (afterSubmit env options fuel (scanFiles paths))
          (scanFiles paths).videos.length (hub'.2.2 hne)

/-- Witness for `active_set_bounded`: a three-video run at ceiling 2 keeps
every observed active-set size at most 2. -/
theorem active_set_bounded_witness :
    1 ≤ effectiveParallelCount optsC1 ∧
    ∀ n ∈ (runAll envC1 optsC1 10 ["a.mp4", "b.mp4", "c.mkv"]).sizes,
      (n : Int) ≤ effectiveParallelCount optsC1 :=
  ⟨by decide,
   (active_set_bounded envC1 optsC1 10 ["a.mp4", "b.mp4", "c.mkv"]).1
     (by decide)⟩

/-! ## Claim C3: a sanity-check failure aborts the whole batch -/

/-- Claim C3 (code bug): at the failing batch `["a.mp4", "b.mp4"]` under
`envC3`/`optsC3`, the first job's sanity-check failure raises an uncaught
exception that aborts the whole run: the run ends with the
`outputTooSmall` error, the second job is never spawned, and the final
summary is never printed — the batch does not continue as the claim
requires. -/
theorem sanity_failure_aborts_run :
    (runAll envC3 optsC3 9 ["a.mp4", "b.mp4"]).error?
      = some (RunError.outputTooSmall ("a.mp4.mka"))
  ∧ Event.spawn ["ffmpeg", "-loglevel", "fatal", "-i", "b.mp4", "-vn",
      "-acodec", "copy", "b.mp4.mka"] ∉
      (runAll envC3 optsC3 9 ["a.mp4", "b.mp4"]).events
  ∧ Event.print ("converted 2 video files") ∉
      (runAll envC3 optsC3 9 ["a.mp4", "b.mp4"]).events := by
  decide

end VideoToAudio
